import Mathlib

/-!
# Verification of the DupuitLEM hydrological event-integration engine

Shallow embedding of `DupuitLEM/auxiliary_models/hydrological_models.py`.
Per-node numpy arrays become `List ℚ` (real arithmetic modelled exactly over
the rationals), elementwise numpy operations become `List.zipWith`/`List.map`,
and the external collaborators (groundwater solver, flow accumulator, shear
stress and erosion functions) become abstract function parameters.  The
`np.sqrt` primitive is an abstract parameter `sqrtFn : ℚ → ℚ`: none of the
verified properties depends on its values.  A fallible solver is modelled with
`Option`: a `none` result stands for an exception propagating out of
`run_with_adaptive_time_step_solver`, which aborts the loop at that point,
leaving all previously performed field mutations in place.
-/

/-- Elementwise sum of two per-node arrays (numpy `+` on same-shaped arrays). -/
def addL (a b : List ℚ) : List ℚ := List.zipWith (· + ·) a b

/-- `np.zeros_like(l)`: an all-zero array with the shape of `l`. -/
def zerosLike (l : List ℚ) : List ℚ := l.map (fun _ => 0)

/-- Three-argument elementwise map, the shape of numpy expressions that
combine three same-shaped arrays node by node. -/
def zipWith3 (f : ℚ → ℚ → ℚ → ℚ) : List ℚ → List ℚ → List ℚ → List ℚ
  | a :: as, b :: bs, c :: cs => f a b c :: zipWith3 f as bs cs
  | _, _, _ => []

/-- One sub-interval of `calc_storm_eff_shear_stress` (lines 140-151 and
153-164 of `hydrological_models.py`), at a single node.  The source builds
`tauint` as a zero array and then overwrites it under the three boolean masks
`c1 = (tau0 > tauc) & (tau1 > tauc)`, `c2 = (tau0 < tauc) & (tau1 > tauc)`,
`c3 = (tau0 > tauc) & (tau1 < tauc)` in that order; sequential masked
assignment is mirrored by nested conditionals in which a later mask wins. -/
def tauintNode (u v tauc dt : ℚ) : ℚ :=
  let r0 : ℚ := 0
  let r1 := if u > tauc ∧ v > tauc then 0.5 * dt * (u + v - 2 * tauc) else r0
  let r2 := if u < tauc ∧ v > tauc then 0.5 * dt * (v - tauc) * ((v - tauc) / (v - u)) else r1
  let r3 := if u > tauc ∧ v < tauc then 0.5 * dt * (u - tauc) * ((u - tauc) / (u - v)) else r2
  r3

/-- `HydrologyIntegrateShearStress.calc_storm_eff_shear_stress`
(lines 127-167): per-node trapezoidal integration of threshold-exceeding
shear stress over the event (`tau0`→`tau1`, duration `tr`) and interevent
(`tau1`→`tau2`, duration `tb`) sub-intervals, averaged over `tr+tb`. -/
def calc_storm_eff_shear_stress (tau0 tau1 tau2 : List ℚ) (tauc tr tb : ℚ) : List ℚ :=
  zipWith3
    (fun t0 t1 t2 => (tauintNode t0 t1 tauc tr + tauintNode t1 t2 tauc tb) / (tr + tb) + tauc)
    tau0 tau1 tau2

/-- Sub-interval integral as the spec describes it, amended at the threshold
boundary: trapezoid when both endpoints strictly exceed `tauc`, triangle when
one endpoint strictly exceeds `tauc` and the other is strictly below, and `0`
in every remaining case (in particular whenever an endpoint equals `tauc`
exactly). -/
def subintSpec (u v tauc dt : ℚ) : ℚ :=
  if tauc < u ∧ tauc < v then 0.5 * dt * (u + v - 2 * tauc)
  else if u < tauc ∧ tauc < v then 0.5 * dt * (v - tauc) * ((v - tauc) / (v - u))
  else if tauc < u ∧ v < tauc then 0.5 * dt * (u - tauc) * ((u - tauc) / (u - v))
  else 0

theorem tauintNode_eq_subintSpec (u v tauc dt : ℚ) :
    tauintNode u v tauc dt = subintSpec u v tauc dt := by
  simp only [tauintNode, subintSpec, gt_iff_lt]
  rcases lt_trichotomy u tauc with h1 | h1 | h1 <;>
    rcases lt_trichotomy v tauc with h2 | h2 | h2 <;>
    first
      | simp [h1, h2, asymm h1, asymm h2, lt_self_iff_false]
      | simp [h1, h2, asymm h1, lt_self_iff_false]
      | simp [h1, h2, asymm h2, lt_self_iff_false]
      | simp [h1, h2, lt_self_iff_false]

theorem zipWith3_get? (f : ℚ → ℚ → ℚ → ℚ) (l1 l2 l3 : List ℚ) (i : ℕ) (a b c : ℚ)
    (h1 : l1.get? i = some a) (h2 : l2.get? i = some b) (h3 : l3.get? i = some c) :
    (zipWith3 f l1 l2 l3).get? i = some (f a b c) := by
  induction l1 generalizing l2 l3 i with
  | nil => simp at h1
  | cons x xs ih =>
    cases l2 with
    | nil => simp at h2
    | cons y ys =>
      cases l3 with
      | nil => simp at h3
      | cons z zs =>
        cases i with
        | zero =>
          simp only [List.get?_cons_zero, Option.some_inj] at h1 h2 h3
          simp [zipWith3, h1, h2, h3]
        | succ n =>
          simp only [List.get?_cons_succ] at h1 h2 h3
          simpa [zipWith3] using ih ys zs n h1 h2 h3

theorem zipWith3_length (f : ℚ → ℚ → ℚ → ℚ) (l1 l2 l3 : List ℚ) :
    (zipWith3 f l1 l2 l3).length = min (min l1.length l2.length) l3.length := by
  induction l1 generalizing l2 l3 with
  | nil => simp [zipWith3]
  | cons x xs ih =>
    cases l2 with
    | nil => simp [zipWith3]
    | cons y ys =>
      cases l3 with
      | nil => simp [zipWith3]
      | cons z zs => simp [zipWith3, ih ys zs]; omega

/-- C1 (counterexample): at `tau0 = tauc` exactly one endpoint of the first
sub-interval exceeds `tauc` (namely `tau1 = 2 > 1`), so the claim's triangle
rule predicts `(0.5*2*(2-1)*((2-1)/(2-1)) + 0.5*2*(2-1)*((2-1)/(2-0)))/(2+2) + 1
= 11/8`; the code's strict masks all miss `tau0 = tauc`, the first sub-interval
contributes `0`, and the code returns `9/8`. -/
theorem C1_boundary_counterexample :
    calc_storm_eff_shear_stress [1] [2] [0] 1 2 2 ≠
      [(0.5 * 2 * ((2 : ℚ) - 1) * (((2 : ℚ) - 1) / ((2 : ℚ) - 1)) +
        0.5 * 2 * ((2 : ℚ) - 1) * (((2 : ℚ) - 1) / ((2 : ℚ) - 0))) / (2 + 2) + 1] := by
  have h9 : calc_storm_eff_shear_stress [1] [2] [0] 1 2 2 = [9 / 8] := by
    norm_num [calc_storm_eff_shear_stress, zipWith3, tauintNode]
  rw [h9]
  norm_num

/-- C1 (amended): `calc_storm_eff_shear_stress` evaluates each node
independently over the two sub-intervals; each sub-interval integral is the
trapezoid area when both endpoints strictly exceed `tauc`, the triangle area
`0.5*dt*(v-tauc)*((v-tauc)/(v-u))` when endpoint `v` strictly exceeds `tauc`
and the other endpoint `u` is strictly below it, and `0` in every remaining
case; the effective value is `(integral1+integral2)/(tr+tb) + tauc`, and the
output array is sized identically to the inputs. -/
theorem C1_trapezoid_cases (tau0 tau1 tau2 : List ℚ) (tauc tr tb : ℚ)
    (h1 : tau1.length = tau0.length) (h2 : tau2.length = tau0.length) :
    (calc_storm_eff_shear_stress tau0 tau1 tau2 tauc tr tb).length = tau0.length ∧
    ∀ i a b c, tau0.get? i = some a → tau1.get? i = some b → tau2.get? i = some c →
      (calc_storm_eff_shear_stress tau0 tau1 tau2 tauc tr tb).get? i =
        some ((subintSpec a b tauc tr + subintSpec b c tauc tb) / (tr + tb) + tauc) := by
  constructor
  · simp [calc_storm_eff_shear_stress, zipWith3_length, h1, h2]
  · intro i a b c ha hb hc
    have := zipWith3_get?
      (fun t0 t1 t2 => (tauintNode t0 t1 tauc tr + tauintNode t1 t2 tauc tb) / (tr + tb) + tauc)
      tau0 tau1 tau2 i a b c ha hb hc
    simpa [calc_storm_eff_shear_stress, tauintNode_eq_subintSpec] using this

theorem C1_trapezoid_cases_witness :
    ([2].length = [1].length ∧
      ∀ i a b c, [(1 : ℚ)].get? i = some a → [(2 : ℚ)].get? i = some b →
        [(0 : ℚ)].get? i = some c →
        (calc_storm_eff_shear_stress [1] [2] [0] 1 2 2).get? i =
          some ((subintSpec a b 1 2 + subintSpec b c 1 2) / (2 + 2) + 1)) ∧
    (calc_storm_eff_shear_stress [1] [2] [0] 1 2 2).length = 1 := by
  have h := C1_trapezoid_cases [1] [2] [0] 1 2 2 rfl rfl
  exact ⟨⟨rfl, h.2⟩, h.1⟩

/-- C2 (evaluation at the failing input): the spec scenario `tau0 = 0`,
`tau1 = 2`, `tau2 = 1`, `tauc = 0`, `tr = 100`, `tb = 900` demands
`(0.5*100*(0+2) + 0.5*900*(2+1))/1000 + 0 = 1.45`, but because `tau0 = tauc`
matches none of the strict masks the event sub-interval contributes `0` and
the code returns `(0 + 1350)/1000 = 1.35 = 27/20` at every node. -/
theorem C2_scenario_eval :
    calc_storm_eff_shear_stress [0] [2] [1] 0 100 900 = [27 / 20] ∧
    ((27 : ℚ) / 20 ≠ (0.5 * 100 * (0 + 2) + 0.5 * 900 * (2 + 1)) / 1000 + 0) := by
  constructor
  · norm_num [calc_storm_eff_shear_stress, zipWith3, tauintNode]
  · norm_num

/-- C3: at a node with `tau0 < tauc < tau1` and `tau2 < tauc`, and for any
positive durations, the effective shear stress returned by
`calc_storm_eff_shear_stress` is strictly greater than `tauc` and strictly
less than `max tau1 tauc`: it never exceeds the highest exceeding value. -/
theorem C3_bounds (tau0 tau1 tau2 : List ℚ) (tauc tr tb : ℚ) (i : ℕ) (a b c : ℚ)
    (ha : tau0.get? i = some a) (hb : tau1.get? i = some b) (hc : tau2.get? i = some c)
    (h0 : a < tauc) (h1 : tauc < b) (h2 : c < tauc) (htr : 0 < tr) (htb : 0 < tb) :
    ∃ v, (calc_storm_eff_shear_stress tau0 tau1 tau2 tauc tr tb).get? i = some v ∧
      tauc < v ∧ v < max b tauc := by
  have hget := zipWith3_get?
    (fun t0 t1 t2 => (tauintNode t0 t1 tauc tr + tauintNode t1 t2 tauc tb) / (tr + tb) + tauc)
    tau0 tau1 tau2 i a b c ha hb hc
  refine ⟨_, by simpa [calc_storm_eff_shear_stress] using hget, ?_, ?_⟩
  · -- lower bound: both sub-interval integrals are positive
    have hT1 : tauintNode a b tauc tr = 0.5 * tr * (b - tauc) * ((b - tauc) / (b - a)) := by
      simp [tauintNode, h0, h1, asymm h0, asymm h1]
    have hT2 : tauintNode b c tauc tb = 0.5 * tb * (b - tauc) * ((b - tauc) / (b - c)) := by
      simp [tauintNode, h1, h2, asymm h1, asymm h2]
    have hba : 0 < b - a := by linarith
    have hbc : 0 < b - c := by linarith
    have hbt : 0 < b - tauc := by linarith
    have hp1 : 0 < tauintNode a b tauc tr := by rw [hT1]; positivity
    have hp2 : 0 < tauintNode b c tauc tb := by rw [hT2]; positivity
    have hD : 0 < tr + tb := by linarith
    have : 0 < (tauintNode a b tauc tr + tauintNode b c tauc tb) / (tr + tb) := by positivity
    linarith
  · -- upper bound: each triangle factor `(b-tauc)/(b-·)` is below one
    have hT1 : tauintNode a b tauc tr = 0.5 * tr * (b - tauc) * ((b - tauc) / (b - a)) := by
      simp [tauintNode, h0, h1, asymm h0, asymm h1]
    have hT2 : tauintNode b c tauc tb = 0.5 * tb * (b - tauc) * ((b - tauc) / (b - c)) := by
      simp [tauintNode, h1, h2, asymm h1, asymm h2]
    have hba : 0 < b - a := by linarith
    have hbc : 0 < b - c := by linarith
    have hbt : 0 < b - tauc := by linarith
    have hf1 : (b - tauc) / (b - a) < 1 := (div_lt_one hba).2 (by linarith)
    have hf2 : (b - tauc) / (b - c) < 1 := (div_lt_one hbc).2 (by linarith)
    have hb1 : tauintNode a b tauc tr < 0.5 * tr * (b - tauc) := by
      rw [hT1]
      calc 0.5 * tr * (b - tauc) * ((b - tauc) / (b - a))
          < 0.5 * tr * (b - tauc) * 1 := by
            apply mul_lt_mul_of_pos_left hf1; positivity
        _ = 0.5 * tr * (b - tauc) := by ring
    have hb2 : tauintNode b c tauc tb < 0.5 * tb * (b - tauc) := by
      rw [hT2]
      calc 0.5 * tb * (b - tauc) * ((b - tauc) / (b - c))
          < 0.5 * tb * (b - tauc) * 1 := by
            apply mul_lt_mul_of_pos_left hf2; positivity
        _ = 0.5 * tb * (b - tauc) := by ring
    have hD : 0 < tr + tb := by linarith
    have hsum : tauintNode a b tauc tr + tauintNode b c tauc tb
        < 0.5 * (tr + tb) * (b - tauc) := by linarith
    have hdiv : (tauintNode a b tauc tr + tauintNode b c tauc tb) / (tr + tb)
        < 0.5 * (b - tauc) := by
      rw [div_lt_iff₀ hD]; nlinarith
    have hmax : max b tauc = b := max_eq_left (le_of_lt h1)
    rw [hmax]
    linarith

theorem C3_bounds_witness :
    ∃ v, (calc_storm_eff_shear_stress [0] [2] [0] 1 1 1).get? 0 = some v ∧
      (1 : ℚ) < v ∧ v < max 2 1 :=
  C3_bounds [0] [2] [0] 1 1 1 0 0 2 0 rfl rfl rfl (by norm_num) (by norm_num)
    (by norm_num) (by norm_num) (by norm_num)

/-- The tiny positive duration floor `1e-15` applied to interevent solver
calls (e.g. line 654: `max(interstorm_dt, 1e-15)`). -/
def eps : ℚ := 1 / 10 ^ 15

/-- One call made by a `run_step` method to an external collaborator, in
program order.  `gwAdvance r d` is `gdp.recharge = r` followed by
`gdp.run_with_adaptive_time_step_solver(d)`; `accumulateFlow b` is
`fa.accumulate_flow(update_flow_director=b)`; `findPits` is
`dfr._find_pits()`; `lakeFill` is `lmb.run_one_step()`; `updateDirections`
is `fd.run_one_step()`. -/
inductive HydroOp
  | findPits
  | lakeFill
  | updateDirections
  | gwAdvance (recharge duration : ℚ)
  | accumulateFlow (update_flow_director : Bool)
deriving DecidableEq, Repr

/-- The external world a step operation interacts with: the pit count the
depression finder reports, the forcing sequence the precipitation generator
yields as `(storm_dt, interstorm_dt, intensity)` triples, the groundwater
solver (a state transformer also reporting `number_of_substeps`, with `none`
standing for a raised exception), and the per-node hydraulic snapshot
(discharge, or shear stress for the shear-stress models) that flow
accumulation produces from the current groundwater state. -/
structure HydroEnv (σ : Type) where
  pits : ℕ
  forcing : List (ℚ × ℚ × ℚ)
  gwStep : σ → ℚ → ℚ → Option (σ × ℕ)
  snap : σ → List ℚ
  g0 : σ

/-- The calls every event-loop `run_step` makes before its loop
(lines 625-631): pit detection, depression filling only when pits exist,
then the single flow-direction update. -/
def preTrace (pits : ℕ) : List HydroOp :=
  HydroOp.findPits :: ((if 0 < pits then [HydroOp.lakeFill] else []) ++ [HydroOp.updateDirections])

/-- Result of one event/interevent loop of the streampower models. -/
structure SPLoopOut (σ : Type) where
  trace : List HydroOp
  q_total_vol : List ℚ
  q2 : List ℚ
  g : σ
  maxStorm : ℕ
  maxInterstorm : ℕ
  ok : Bool

/-- The event/interevent loop shared by `HydrologyEventStreamPower.run_step`
(lines 637-662) and `HydrologyEventThresholdStreamPower.run_step`
(lines 853-881).  `post` is what the model does to each raw discharge
snapshot: the identity for the base model, `np.maximum(q - Q0, 0)` for the
threshold model.  Per storm: set recharge to the intensity and advance the
solver by `storm_dt`, re-accumulate flow, snapshot `q1`; set recharge to 0
and advance by `max(interstorm_dt, eps)`, re-accumulate flow, snapshot `q2`;
then `q_total_vol += 0.5*(q0+q1)*storm_dt` with `q0` the previous iteration's
end-of-interevent snapshot.  A `none` from the solver aborts the loop there,
exactly as a raised exception would, leaving the accumulator as it stood. -/
def runEventsSP (gwStep : σ → ℚ → ℚ → Option (σ × ℕ)) (snap : σ → List ℚ)
    (post : List ℚ → List ℚ) :
    List (ℚ × ℚ × ℚ) → σ → List ℚ → List ℚ → ℕ → ℕ → SPLoopOut σ
  | [], g, q2, acc, ms, mi => ⟨[], acc, q2, g, ms, mi, true⟩
  | (storm_dt, interstorm_dt, intensity) :: rest, g, q2, acc, ms, mi =>
    let q0 := q2
    match gwStep g intensity storm_dt with
    | none => ⟨[HydroOp.gwAdvance intensity storm_dt], acc, q2, g, ms, mi, false⟩
    | some (g1, n1) =>
      let q1 := post (snap g1)
      let ms' := max ms n1
      match gwStep g1 0 (max interstorm_dt eps) with
      | none =>
          ⟨[HydroOp.gwAdvance intensity storm_dt, HydroOp.accumulateFlow false,
            HydroOp.gwAdvance 0 (max interstorm_dt eps)], acc, q2, g1, ms', mi, false⟩
      | some (g2, n2) =>
          let q2' := post (snap g2)
          let mi' := max mi n2
          let acc' := addL acc ((addL q0 q1).map (fun x => 0.5 * x * storm_dt))
          let out := runEventsSP gwStep snap post rest g2 q2' acc' ms' mi'
          ⟨HydroOp.gwAdvance intensity storm_dt :: HydroOp.accumulateFlow false ::
            HydroOp.gwAdvance 0 (max interstorm_dt eps) :: HydroOp.accumulateFlow false ::
            out.trace,
            out.q_total_vol, out.q2, out.g, out.maxStorm, out.maxInterstorm, out.ok⟩

/-- The two output grid fields of the streampower step models. -/
structure SPFields where
  q_eff : List ℚ
  q_an : List ℚ
deriving DecidableEq, Repr

/-- What a streampower `run_step` call leaves behind: its collaborator-call
trace, the two output fields (unchanged from `f0` when the loop raised), the
sub-step diagnostics, and whether the step ran to completion. -/
structure SPStepOut where
  trace : List HydroOp
  fields : SPFields
  maxStorm : ℕ
  maxInterstorm : ℕ
  ok : Bool
deriving DecidableEq, Repr

/-- `q_an = np.divide(q_eff, np.sqrt(area), where=area > 0,
out=np.zeros_like(q_eff))` (lines 665-670 and 558-560): the guarded
area-normalized discharge, zero wherever the guard fails. -/
def q_an_calc (sqrtFn : ℚ → ℚ) (q area : List ℚ) : List ℚ :=
  List.zipWith (fun qe a => if 0 < a then qe / sqrtFn a else 0) q area

/-- `HydrologyEventStreamPower.run_step` (lines 616-670): pit correction and
one flow-direction update, the event/interevent loop started from all-zero
`q_total_vol` and `q2`, and, only after the whole loop succeeds, the
assignments `q_eff[:] = q_total_vol / T_h` and the guarded `q_an`. -/
def HydrologyEventStreamPower.run_step (sqrtFn : ℚ → ℚ) (T_h : ℚ) (area : List ℚ)
    (env : HydroEnv σ) (f0 : SPFields) : SPStepOut :=
  let out := runEventsSP env.gwStep env.snap id env.forcing env.g0
      (zerosLike f0.q_eff) (zerosLike f0.q_eff) 0 0
  if out.ok then
    let q_eff := out.q_total_vol.map (fun x => x / T_h)
    ⟨preTrace env.pits ++ out.trace, ⟨q_eff, q_an_calc sqrtFn q_eff area⟩,
      out.maxStorm, out.maxInterstorm, true⟩
  else
    ⟨preTrace env.pits ++ out.trace, f0, out.maxStorm, out.maxInterstorm, false⟩

/-- `critical_erosion__discharge` (lines 839-847): with `S` the magnitude of
the elevation gradient along each node's flow link,
`Q0 = np.divide(E0*sqrt(area), Ksp*S, where=S > 0, out=np.zeros_like(S))`. -/
def calcQ0 (sqrtFn : ℚ → ℚ) (E0 Ksp : ℚ) (area dzdxRec : List ℚ) : List ℚ :=
  List.zipWith (fun a s => if 0 < |s| then E0 * sqrtFn a / (Ksp * |s|) else 0) area dzdxRec

/-- `np.maximum(q - Q0, 0.0)` (lines 863 and 873): the threshold-corrected
discharge snapshot. -/
def thresholdCorrect (q Q0 : List ℚ) : List ℚ :=
  List.zipWith (fun qi c => max (qi - c) 0) q Q0

/-- `HydrologyEventThresholdStreamPower.run_step` (lines 821-889): as the base
model, except that `Q0` is computed once before the loop (with one extra
`accumulate_flow` call to refresh the drainage area, line 841) and every raw
discharge snapshot is replaced by `np.maximum(q - Q0, 0)`. -/
def HydrologyEventThresholdStreamPower.run_step (sqrtFn : ℚ → ℚ) (T_h E0 Ksp : ℚ)
    (area dzdxRec : List ℚ) (env : HydroEnv σ) (f0 : SPFields) : SPStepOut :=
  let Q0 := calcQ0 sqrtFn E0 Ksp area dzdxRec
  let out := runEventsSP env.gwStep env.snap (fun q => thresholdCorrect q Q0)
      env.forcing env.g0 (zerosLike f0.q_eff) (zerosLike f0.q_eff) 0 0
  if out.ok then
    let q_eff := out.q_total_vol.map (fun x => x / T_h)
    ⟨preTrace env.pits ++ (HydroOp.accumulateFlow false :: out.trace),
      ⟨q_eff, q_an_calc sqrtFn q_eff area⟩, out.maxStorm, out.maxInterstorm, true⟩
  else
    ⟨preTrace env.pits ++ (HydroOp.accumulateFlow false :: out.trace), f0,
      out.maxStorm, out.maxInterstorm, false⟩

/-- The clip `qmax = gdp.recharge * area; q[q > qmax] = qmax[q > qmax]`
(lines 554-555) of the steady streampower model. -/
def clipQmax (q : List ℚ) (recharge : ℚ) (area : List ℚ) : List ℚ :=
  List.zipWith (fun qi qm => if qm < qi then qm else qi) q (area.map (fun a => recharge * a))

/-- `HydrologySteadyStreamPower.run_step` (lines 535-560): advance the
groundwater solver over the whole hydrological timestep, accumulate flow,
clip the discharge at `recharge * area`, then compute the guarded
area-normalized discharge.  Returns the final `(surface_water__discharge,
surface_water_area_norm__discharge)` pair, or `none` when the solver raised. -/
def HydrologySteadyStreamPower.run_step (sqrtFn : ℚ → ℚ) (T_h recharge : ℚ)
    (gwStep : σ → ℚ → ℚ → Option (σ × ℕ)) (g0 : σ) (snap : σ → List ℚ)
    (area : List ℚ) : Option (List ℚ × List ℚ) :=
  match gwStep g0 recharge T_h with
  | none => none
  | some (g1, _) =>
      let q := snap g1
      let qc := clipQmax q recharge area
      some (qc, q_an_calc sqrtFn qc area)

/-- The two persistent per-node arrays the shear-stress integration model
mutates: the grid field `surface_water__shear_stress` and the instance
attribute `dzdt`. -/
structure ISSFields where
  tau : List ℚ
  dzdt : List ℚ
deriving DecidableEq, Repr

/-- The loop of `HydrologyIntegrateShearStress.run_step` (lines 207-231).
Unlike the streampower model, the persistent arrays are written INSIDE the
loop: each iteration overwrites the shear-stress field with the effective
value and adds the time-weighted erosion rate to `self.dzdt`.  `snap g` is
`calc_shear_stress(grid)` after flow accumulation in groundwater state `g`,
and `erosionOf` is `calc_erosion_from_shear_stress` as a function of the
current shear-stress field.  A `none` from the solver aborts the loop,
leaving both arrays exactly as already mutated. -/
def runEventsISS (gwStep : σ → ℚ → ℚ → Option (σ × ℕ)) (snap : σ → List ℚ)
    (erosionOf : List ℚ → List ℚ) (tauc T_h : ℚ) :
    List (ℚ × ℚ × ℚ) → σ → List ℚ → ISSFields → ISSFields × Bool
  | [], _, _, f => (f, true)
  | (storm_dt, interstorm_dt, intensity) :: rest, g, tau2, f =>
    let tau0 := tau2
    match gwStep g intensity storm_dt with
    | none => (f, false)
    | some (g1, _) =>
      let tau1 := snap g1
      match gwStep g1 0 (max interstorm_dt eps) with
      | none => (f, false)
      | some (g2, _) =>
        let tau2' := snap g2
        let tauF := calc_storm_eff_shear_stress tau0 tau1 tau2' tauc storm_dt interstorm_dt
        let dz := erosionOf tauF
        let f' : ISSFields :=
          ⟨tauF, addL f.dzdt (dz.map (fun x => (storm_dt + interstorm_dt) / T_h * x))⟩
        runEventsISS gwStep snap erosionOf tauc T_h rest g2 tau2' f'

/-- `HydrologyIntegrateShearStress.run_step` (lines 187-231), projected to the
persistent arrays and the success flag (the pit-correction and flow-direction
calls, which touch neither array, are modelled by the trace embeddings of the
streampower variants).  Before the loop `self.dzdt` is reassigned to zeros and
the running `tau2` starts from a copy of the current shear-stress field. -/
def HydrologyIntegrateShearStress.run_step (erosionOf : List ℚ → List ℚ) (tauc T_h : ℚ)
    (env : HydroEnv σ) (f0 : ISSFields) : ISSFields × Bool :=
  runEventsISS env.gwStep env.snap erosionOf tauc T_h env.forcing env.g0 f0.tau
    ⟨f0.tau, zerosLike f0.tau⟩

/-- The collaborator-call trace of
`HydrologyEventShearStress.run_step_record_state` (lines 341-442): pit
correction and one flow-direction update, then per storm an event advance at
the storm intensity, a flow re-accumulation, an interevent advance whose
duration is `self.interstorm_dts[i]` with NO epsilon floor (line 417), and a
second flow re-accumulation. -/
def HydrologyEventShearStress.run_step_record_state_trace (pits : ℕ)
    (forcing : List (ℚ × ℚ × ℚ)) : List HydroOp :=
  preTrace pits ++
    forcing.flatMap (fun s =>
      [HydroOp.gwAdvance s.2.2 s.1, HydroOp.accumulateFlow false,
       HydroOp.gwAdvance 0 s.2.1, HydroOp.accumulateFlow false])

/-- C4 (code-bug evidence): with a single storm of `interstorm_dt = 0`,
`HydrologyEventShearStress.run_step_record_state` advances the groundwater
solver for the interevent with duration exactly `0` and never with the
floored duration `max 0 eps` the claim requires (line 417 passes
`self.interstorm_dts[i]` with no floor), while
`HydrologyEventStreamPower.run_step` on the same forcing does advance the
solver with `max 0 eps` (line 654). -/
theorem C4_zero_duration_call :
    HydroOp.gwAdvance 0 0 ∈
      HydrologyEventShearStress.run_step_record_state_trace 0 [(100, 0, 2)] ∧
    HydroOp.gwAdvance 0 (max 0 eps) ∉
      HydrologyEventShearStress.run_step_record_state_trace 0 [(100, 0, 2)] ∧
    HydroOp.gwAdvance 0 (max 0 eps) ∈
      (HydrologyEventStreamPower.run_step id 1000 []
        ⟨0, [(100, 0, 2)], fun (g : Unit) _ _ => some (g, 1), fun _ => [], ()⟩
        ⟨[], []⟩).trace := by
  have hmax : max (0 : ℚ) eps = eps := max_eq_right (by norm_num [eps])
  refine ⟨?_, ?_, ?_⟩
  · norm_num [HydrologyEventShearStress.run_step_record_state_trace, preTrace]
  · rw [hmax]
    norm_num [HydrologyEventShearStress.run_step_record_state_trace, preTrace, eps]
    exact ⟨fun h => HydroOp.noConfusion h, fun h => HydroOp.noConfusion h,
      fun h => HydroOp.noConfusion h⟩
  · norm_num [HydrologyEventStreamPower.run_step, runEventsSP, preTrace, zerosLike]

/-- C5 (counterexample): `HydrologyIntegrateShearStress.run_step` accumulates
into the persistent `self.dzdt` inside the loop.  With two storms and a solver
that raises on the fourth call (mid iteration 2), the step reports failure yet
leaves `dzdt = [1/2]` — the partial sum of iteration 1 alone — which differs
from the pre-step value `[5]`, from the zero reset `[0]`, and from the value
`[2]` a completed loop produces. -/
theorem C5_partial_accumulator_counterexample :
    (HydrologyIntegrateShearStress.run_step id (-1) 4
        ⟨0, [(1, 1, 0), (1, 1, 0)],
         fun g _ _ => if 3 ≤ g then none else some (g + 1, 1),
         fun g => [(g : ℚ)], 0⟩ ⟨[0], [5]⟩).2 = false ∧
    (HydrologyIntegrateShearStress.run_step id (-1) 4
        ⟨0, [(1, 1, 0), (1, 1, 0)],
         fun g _ _ => if 3 ≤ g then none else some (g + 1, 1),
         fun g => [(g : ℚ)], 0⟩ ⟨[0], [5]⟩).1.dzdt = [1 / 2] ∧
    (HydrologyIntegrateShearStress.run_step id (-1) 4
        ⟨0, [(1, 1, 0), (1, 1, 0)],
         fun g _ _ => some (g + 1, 1),
         fun g => [(g : ℚ)], 0⟩ ⟨[0], [5]⟩).1.dzdt = [2] ∧
    ([1 / 2] : List ℚ) ≠ [5] ∧ ([1 / 2] : List ℚ) ≠ [0] ∧ ([1 / 2] : List ℚ) ≠ [2] := by
  refine ⟨?_, ?_, ?_, by norm_num, by norm_num, by norm_num⟩
  · norm_num [HydrologyIntegrateShearStress.run_step, runEventsISS,
      calc_storm_eff_shear_stress, zipWith3, tauintNode, addL, zerosLike]
  · norm_num [HydrologyIntegrateShearStress.run_step, runEventsISS,
      calc_storm_eff_shear_stress, zipWith3, tauintNode, addL, zerosLike]
  · norm_num [HydrologyIntegrateShearStress.run_step, runEventsISS,
      calc_storm_eff_shear_stress, zipWith3, tauintNode, addL, zerosLike]

/-- C5 (amended): `HydrologyEventStreamPower.run_step` is transactional in its
output fields: it accumulates into the step-local `q_total_vol` and writes
`surface_water_effective__discharge` and the area-normalized field only after
the whole event loop has finished, so if a solver call raises in any iteration
both output fields keep exactly their pre-step values.
`HydrologyIntegrateShearStress.run_step`, by contrast, mutates `dzdt` inside
the loop and a mid-loop failure leaves it partially accumulated. -/
theorem C5_transactional_discharge (sqrtFn : ℚ → ℚ) (T_h : ℚ) (area : List ℚ)
    (env : HydroEnv σ) (f0 : SPFields)
    (h : (HydrologyEventStreamPower.run_step sqrtFn T_h area env f0).ok = false) :
    (HydrologyEventStreamPower.run_step sqrtFn T_h area env f0).fields = f0 := by
  by_cases hc : (runEventsSP env.gwStep env.snap id env.forcing env.g0
      (zerosLike f0.q_eff) (zerosLike f0.q_eff) 0 0).ok = true
  · simp [HydrologyEventStreamPower.run_step, hc] at h
  · rw [Bool.not_eq_true] at hc
    simp [HydrologyEventStreamPower.run_step, hc]

theorem C5_transactional_discharge_witness :
    (HydrologyEventStreamPower.run_step id 10 []
        ⟨0, [(1, 1, 1)], fun (_ : Unit) _ _ => none, fun _ => [], ()⟩
        ⟨[3], [4]⟩).fields = ⟨[3], [4]⟩ := by
  apply C5_transactional_discharge
  simp [HydrologyEventStreamPower.run_step, runEventsSP]

theorem zipWith_get?_some (f : ℚ → ℚ → ℚ) (l1 l2 : List ℚ) (i : ℕ) (a b : ℚ)
    (h1 : l1.get? i = some a) (h2 : l2.get? i = some b) :
    (List.zipWith f l1 l2).get? i = some (f a b) := by
  induction l1 generalizing l2 i with
  | nil => simp at h1
  | cons x xs ih =>
    cases l2 with
    | nil => simp at h2
    | cons y ys =>
      cases i with
      | zero =>
        simp only [List.get?_cons_zero, Option.some_inj] at h1 h2
        simp [h1, h2]
      | succ n =>
        simp only [List.get?_cons_succ] at h1 h2
        simpa using ih ys n h1 h2

theorem zipWith_get?_inv (f : ℚ → ℚ → ℚ) (l1 l2 : List ℚ) (i : ℕ) (v : ℚ)
    (h : (List.zipWith f l1 l2).get? i = some v) :
    ∃ a b, l1.get? i = some a ∧ l2.get? i = some b ∧ v = f a b := by
  induction l1 generalizing l2 i with
  | nil => simp at h
  | cons x xs ih =>
    cases l2 with
    | nil => simp at h
    | cons y ys =>
      cases i with
      | zero =>
        refine ⟨x, y, rfl, rfl, ?_⟩
        simp only [List.zipWith_cons_cons, List.get?_cons_zero, Option.some_inj] at h
        exact h.symm
      | succ n =>
        simp only [List.zipWith_cons_cons, List.get?_cons_succ] at h
        exact ih ys n h

/-- C9: after `HydrologySteadyStreamPower.run_step`, the discharge field never
exceeds `recharge * drainage_area` at any node: every accumulated value above
that bound was clipped down to it before the area-normalized field was
computed. -/
theorem C9_discharge_cap (sqrtFn : ℚ → ℚ) (T_h recharge : ℚ)
    (gwStep : σ → ℚ → ℚ → Option (σ × ℕ)) (g0 : σ) (snap : σ → List ℚ)
    (area qc qan : List ℚ) (i : ℕ) (qv a : ℚ)
    (h : HydrologySteadyStreamPower.run_step sqrtFn T_h recharge gwStep g0 snap area =
      some (qc, qan))
    (hq : qc.get? i = some qv) (ha : area.get? i = some a) :
    qv ≤ recharge * a := by
  unfold HydrologySteadyStreamPower.run_step at h
  rcases hg : gwStep g0 recharge T_h with _ | ⟨g1, n⟩
  · rw [hg] at h
    simp at h
  · rw [hg] at h
    simp only [Option.some_inj, Prod.mk.injEq] at h
    obtain ⟨hqc, _⟩ := h
    rw [← hqc] at hq
    obtain ⟨x, y, _, hy, hv⟩ := zipWith_get?_inv _ _ _ i qv hq
    have hym : y = recharge * a := by
      rw [List.get?_map, ha] at hy
      simpa using hy.symm
    subst hym hv
    split
    · exact le_refl _
    · next hlt => exact le_of_not_lt hlt

theorem C9_discharge_cap_witness :
    HydrologySteadyStreamPower.run_step id 5 1 (fun (_ : Unit) _ _ => some ((), 1)) ()
        (fun _ => [10]) [2] = some ([2], [1]) ∧ (2 : ℚ) ≤ 1 * 2 := by
  constructor
  · norm_num [HydrologySteadyStreamPower.run_step, clipQmax, q_an_calc]
  · exact C9_discharge_cap id 5 1 (fun (_ : Unit) _ _ => some ((), 1)) ()
      (fun _ => [10]) [2] [2] [1] 0 2 2
      (by norm_num [HydrologySteadyStreamPower.run_step, clipQmax, q_an_calc]) rfl rfl

/-- C7: after a step is finalized, the area-normalized discharge at a node
with zero drainage area is exactly `0` for any effective discharge (the
division never runs for guarded-out entries), and at a node with positive
area it is `q_eff / sqrt(area)`; this holds for the event model's
finalization (lines 665-670) and for the steady model's (lines 558-560). -/
theorem C7_area_normalization (sqrtFn : ℚ → ℚ) (T_h recharge : ℚ) (area : List ℚ)
    (env : HydroEnv σ) (f0 : SPFields)
    (gwStep : σ → ℚ → ℚ → Option (σ × ℕ)) (g0 : σ) (snap : σ → List ℚ)
    (qc qan : List ℚ) (i : ℕ) (a qe qv : ℚ)
    (ha : area.get? i = some a)
    (hok : (HydrologyEventStreamPower.run_step sqrtFn T_h area env f0).ok = true)
    (hqe : (HydrologyEventStreamPower.run_step sqrtFn T_h area env f0).fields.q_eff.get? i =
      some qe)
    (hst : HydrologySteadyStreamPower.run_step sqrtFn T_h recharge gwStep g0 snap area =
      some (qc, qan))
    (hqv : qc.get? i = some qv) :
    ((a = 0 →
        (HydrologyEventStreamPower.run_step sqrtFn T_h area env f0).fields.q_an.get? i =
          some 0) ∧
      (0 < a →
        (HydrologyEventStreamPower.run_step sqrtFn T_h area env f0).fields.q_an.get? i =
          some (qe / sqrtFn a))) ∧
    ((a = 0 → qan.get? i = some 0) ∧ (0 < a → qan.get? i = some (qv / sqrtFn a))) := by
  constructor
  · -- event model
    have hloopok : (runEventsSP env.gwStep env.snap id env.forcing env.g0
        (zerosLike f0.q_eff) (zerosLike f0.q_eff) 0 0).ok = true := by
      by_contra hc
      rw [Bool.not_eq_true] at hc
      simp [HydrologyEventStreamPower.run_step, hc] at hok
    have hfields : (HydrologyEventStreamPower.run_step sqrtFn T_h area env f0).fields =
        ⟨(runEventsSP env.gwStep env.snap id env.forcing env.g0
            (zerosLike f0.q_eff) (zerosLike f0.q_eff) 0 0).q_total_vol.map (fun x => x / T_h),
          q_an_calc sqrtFn
            ((runEventsSP env.gwStep env.snap id env.forcing env.g0
              (zerosLike f0.q_eff) (zerosLike f0.q_eff) 0 0).q_total_vol.map
                (fun x => x / T_h)) area⟩ := by
      simp [HydrologyEventStreamPower.run_step, hloopok]
    rw [hfields] at hqe ⊢
    have hget := zipWith_get?_some (fun qe a => if 0 < a then qe / sqrtFn a else 0)
      _ area i qe a hqe ha
    constructor
    · intro ha0
      rw [q_an_calc, hget, ha0]
      simp
    · intro hapos
      rw [q_an_calc, hget]
      simp [hapos]
  · -- steady model
    unfold HydrologySteadyStreamPower.run_step at hst
    rcases hg : gwStep g0 recharge T_h with _ | ⟨g1, n⟩
    · rw [hg] at hst
      simp at hst
    · rw [hg] at hst
      simp only [Option.some_inj, Prod.mk.injEq] at hst
      obtain ⟨hqc, hqan⟩ := hst
      rw [← hqc] at hqv
      rw [← hqan]
      have hget := zipWith_get?_some (fun qe a => if 0 < a then qe / sqrtFn a else 0)
        _ area i qv a hqv ha
      constructor
      · intro ha0
        rw [q_an_calc, hget, ha0]
        simp
      · intro hapos
        rw [q_an_calc, hget]
        simp [hapos]

theorem C7_area_normalization_witness :
    (((0 : ℚ) = 0 →
        (HydrologyEventStreamPower.run_step id 1 [0]
          ⟨0, [(1, 1, 1)], fun (_ : Unit) _ _ => some ((), 1), fun _ => [6], ()⟩
          ⟨[0], [0]⟩).fields.q_an.get? 0 = some 0) ∧
      ((0 : ℚ) < 0 →
        (HydrologyEventStreamPower.run_step id 1 [0]
          ⟨0, [(1, 1, 1)], fun (_ : Unit) _ _ => some ((), 1), fun _ => [6], ()⟩
          ⟨[0], [0]⟩).fields.q_an.get? 0 = some (3 / id 0))) ∧
    (((0 : ℚ) = 0 → [(0 : ℚ)].get? 0 = some 0) ∧
      ((0 : ℚ) < 0 → [(0 : ℚ)].get? 0 = some (0 / id 0))) := by
  exact C7_area_normalization id 1 1 [0]
    ⟨0, [(1, 1, 1)], fun (_ : Unit) _ _ => some ((), 1), fun _ => [6], ()⟩
    ⟨[0], [0]⟩ (fun (_ : Unit) _ _ => some ((), 1)) () (fun _ => [5]) [0] [0] 0 0 3 0
    rfl
    (by norm_num [HydrologyEventStreamPower.run_step, runEventsSP, zerosLike])
    (by norm_num [HydrologyEventStreamPower.run_step, runEventsSP, zerosLike, addL,
      q_an_calc])
    (by norm_num [HydrologySteadyStreamPower.run_step, clipQmax, q_an_calc])
    rfl

theorem zipWith_const_zero (f : ℚ → ℚ → ℚ) (hf : ∀ a b, f a b = 0) (l1 l2 : List ℚ) :
    List.zipWith f l1 l2 = List.replicate (min l1.length l2.length) 0 := by
  induction l1 generalizing l2 with
  | nil => simp
  | cons x xs ih =>
    cases l2 with
    | nil => simp
    | cons y ys =>
      simp only [List.zipWith_cons_cons, List.length_cons, Nat.succ_min_succ,
        List.replicate_succ]
      rw [hf, ih ys]

theorem thresholdCorrect_replicate_zero (q : List ℚ) (n : ℕ) (hn : q.length = n)
    (hq : ∀ x ∈ q, 0 ≤ x) : thresholdCorrect q (List.replicate n 0) = q := by
  induction q generalizing n with
  | nil => simp [thresholdCorrect]
  | cons x xs ih =>
    cases n with
    | zero => simp at hn
    | succ m =>
      have hx : (0 : ℚ) ≤ x := hq x (by simp)
      have hxs : ∀ y ∈ xs, (0 : ℚ) ≤ y := fun y hy => hq y (by simp [hy])
      have hm : xs.length = m := by simpa using hn
      simp only [List.replicate_succ, thresholdCorrect, List.zipWith_cons_cons]
      rw [sub_zero, max_eq_left hx]
      have := ih m hm hxs
      rw [thresholdCorrect] at this
      rw [this]

theorem runEventsSP_post_eq (gwStep : σ → ℚ → ℚ → Option (σ × ℕ)) (snap : σ → List ℚ)
    (post : List ℚ → List ℚ) (hpost : ∀ g, post (snap g) = snap g) :
    ∀ (forcing : List (ℚ × ℚ × ℚ)) (g : σ) (q2 acc : List ℚ) (ms mi : ℕ),
      runEventsSP gwStep snap post forcing g q2 acc ms mi =
        runEventsSP gwStep snap id forcing g q2 acc ms mi := by
  intro forcing
  induction forcing with
  | nil => intro g q2 acc ms mi; rfl
  | cons s rest ih =>
    intro g q2 acc ms mi
    obtain ⟨sdt, idt, inten⟩ := s
    simp only [runEventsSP]
    cases h1 : gwStep g inten sdt with
    | none => rfl
    | some p1 =>
      obtain ⟨g1, n1⟩ := p1
      cases h2 : gwStep g1 0 (max idt eps) with
      | none => simp [h2]
      | some p2 =>
        obtain ⟨g2, n2⟩ := p2
        simp [h2, hpost, ih]

/-- C6: before the event loop `HydrologyEventThresholdStreamPower.run_step`
computes `Q0 = E0*sqrt(area)/(Ksp*S)` wherever the along-flow slope magnitude
`S` is positive and `Q0 = 0` wherever it is not, and inside the loop it
replaces every raw snapshot `q` by `max(q - Q0, 0)`; consequently with
`E0 = 0` the critical discharge is identically zero regardless of slope and
area, and the threshold model's step computes exactly the same output fields
(and success flag) as the uncorrected `HydrologyEventStreamPower.run_step`,
given nonnegative discharge snapshots of the grid's width. -/
theorem C6_threshold_discharge (sqrtFn : ℚ → ℚ) (E0 Ksp T_h : ℚ) (area dzdxRec : List ℚ)
    (env : HydroEnv σ) (f0 : SPFields)
    (hlen : dzdxRec.length = area.length)
    (hsnap : ∀ g, (env.snap g).length = area.length)
    (hnn : ∀ g, ∀ x ∈ env.snap g, (0 : ℚ) ≤ x) :
    (∀ i a s, area.get? i = some a → dzdxRec.get? i = some s →
      (calcQ0 sqrtFn E0 Ksp area dzdxRec).get? i =
        some (if 0 < |s| then E0 * sqrtFn a / (Ksp * |s|) else 0)) ∧
    (E0 = 0 → calcQ0 sqrtFn E0 Ksp area dzdxRec = List.replicate area.length 0) ∧
    (E0 = 0 →
      (HydrologyEventThresholdStreamPower.run_step sqrtFn T_h E0 Ksp area dzdxRec
          env f0).fields =
        (HydrologyEventStreamPower.run_step sqrtFn T_h area env f0).fields ∧
      (HydrologyEventThresholdStreamPower.run_step sqrtFn T_h E0 Ksp area dzdxRec
          env f0).ok =
        (HydrologyEventStreamPower.run_step sqrtFn T_h area env f0).ok) := by
  have hQ0 : calcQ0 sqrtFn 0 Ksp area dzdxRec = List.replicate area.length 0 := by
    have hf : ∀ a s : ℚ,
        (if 0 < |s| then (0 : ℚ) * sqrtFn a / (Ksp * |s|) else 0) = 0 := by
      intro a s
      split <;> simp
    rw [calcQ0, zipWith_const_zero _ hf area dzdxRec, hlen, min_self]
  refine ⟨?_, ?_, ?_⟩
  · intro i a s ha hs
    exact zipWith_get?_some _ area dzdxRec i a s ha hs
  · intro hE0
    subst hE0
    exact hQ0
  · intro hE0
    subst hE0
    have hpost : ∀ g,
        thresholdCorrect (env.snap g) (calcQ0 sqrtFn 0 Ksp area dzdxRec) = env.snap g := by
      intro g
      rw [hQ0]
      exact thresholdCorrect_replicate_zero _ _ (hsnap g) (hnn g)
    have hloop := runEventsSP_post_eq env.gwStep env.snap
      (fun q => thresholdCorrect q (calcQ0 sqrtFn 0 Ksp area dzdxRec)) hpost env.forcing
      env.g0 (zerosLike f0.q_eff) (zerosLike f0.q_eff) 0 0
    by_cases hb : (runEventsSP env.gwStep env.snap id env.forcing env.g0
        (zerosLike f0.q_eff) (zerosLike f0.q_eff) 0 0).ok = true
    · constructor <;>
        simp [HydrologyEventThresholdStreamPower.run_step,
          HydrologyEventStreamPower.run_step, hloop, hb]
    · rw [Bool.not_eq_true] at hb
      constructor <;>
        simp [HydrologyEventThresholdStreamPower.run_step,
          HydrologyEventStreamPower.run_step, hloop, hb]

theorem C6_threshold_discharge_witness :
    calcQ0 id 0 5 [4] [2] = List.replicate 1 0 ∧
    (HydrologyEventThresholdStreamPower.run_step id 10 0 5 [4] [2]
        ⟨0, [(1, 1, 1)], fun (_ : Unit) _ _ => some ((), 1), fun _ => [3], ()⟩
        ⟨[0], [0]⟩).fields =
      (HydrologyEventStreamPower.run_step id 10 [4]
        ⟨0, [(1, 1, 1)], fun (_ : Unit) _ _ => some ((), 1), fun _ => [3], ()⟩
        ⟨[0], [0]⟩).fields := by
  have h := C6_threshold_discharge id 0 5 10 [4] [2]
    ⟨0, [(1, 1, 1)], fun (_ : Unit) _ _ => some ((), 1), fun _ => [3], ()⟩
    ⟨[0], [0]⟩ rfl (fun g => rfl) (by norm_num)
  exact ⟨h.2.1 rfl, (h.2.2 rfl).1⟩

/-- Shape of the trace the event/interevent loop emits: a sequence of
four-call blocks (event advance, flow re-accumulation, interevent advance,
flow re-accumulation), possibly cut short at the point where the solver
raised. -/
inductive IsEventLoopTrace : List HydroOp → Prop
  | nil : IsEventLoopTrace []
  | fail1 (r d : ℚ) : IsEventLoopTrace [HydroOp.gwAdvance r d]
  | fail2 (r d r' d' : ℚ) :
      IsEventLoopTrace [HydroOp.gwAdvance r d, HydroOp.accumulateFlow false,
        HydroOp.gwAdvance r' d']
  | block (r d r' d' : ℚ) (t : List HydroOp) (h : IsEventLoopTrace t) :
      IsEventLoopTrace (HydroOp.gwAdvance r d :: HydroOp.accumulateFlow false ::
        HydroOp.gwAdvance r' d' :: HydroOp.accumulateFlow false :: t)

theorem runEventsSP_trace_shape (gwStep : σ → ℚ → ℚ → Option (σ × ℕ)) (snap : σ → List ℚ)
    (post : List ℚ → List ℚ) :
    ∀ (forcing : List (ℚ × ℚ × ℚ)) (g : σ) (q2 acc : List ℚ) (ms mi : ℕ),
      IsEventLoopTrace (runEventsSP gwStep snap post forcing g q2 acc ms mi).trace := by
  intro forcing
  induction forcing with
  | nil => intro g q2 acc ms mi; exact IsEventLoopTrace.nil
  | cons s rest ih =>
    intro g q2 acc ms mi
    obtain ⟨sdt, idt, inten⟩ := s
    simp only [runEventsSP]
    cases h1 : gwStep g inten sdt with
    | none =>
      simp only [h1]
      exact IsEventLoopTrace.fail1 _ _
    | some p1 =>
      obtain ⟨g1, n1⟩ := p1
      simp only [h1]
      cases h2 : gwStep g1 0 (max idt eps) with
      | none =>
        simp only [h2]
        exact IsEventLoopTrace.fail2 _ _ _ _
      | some p2 =>
        obtain ⟨g2, n2⟩ := p2
        simp only [h2]
        exact IsEventLoopTrace.block _ _ _ _ _ (ih _ _ _ _ _)

theorem eventLoopTrace_no_setup (t : List HydroOp) (h : IsEventLoopTrace t) :
    HydroOp.findPits ∉ t ∧ HydroOp.lakeFill ∉ t ∧ HydroOp.updateDirections ∉ t := by
  induction h with
  | nil => simp
  | fail1 r d => simp
  | fail2 r d r' d' => simp
  | block r d r' d' t ht ih => simp [ih]

theorem eventLoopTrace_acc_false (t : List HydroOp) (h : IsEventLoopTrace t) :
    ∀ b, HydroOp.accumulateFlow b ∈ t → b = false := by
  induction h with
  | nil => intro b hb; simp at hb
  | fail1 r d => intro b hb; simpa using hb
  | fail2 r d r' d' => intro b hb; simpa using hb
  | block r d r' d' t ht ih =>
    intro b hb
    rcases List.mem_cons.1 hb with h | hb1
    · exact HydroOp.noConfusion h
    rcases List.mem_cons.1 hb1 with h | hb2
    · injection h with h
    rcases List.mem_cons.1 hb2 with h | hb3
    · exact HydroOp.noConfusion h
    rcases List.mem_cons.1 hb3 with h | hb4
    · injection h with h
    exact ih b hb4

theorem eventLoopTrace_gw_precedes (t : List HydroOp) (h : IsEventLoopTrace t) :
    ∀ j b, t.get? j = some (HydroOp.accumulateFlow b) →
      0 < j ∧ ∃ r d, t.get? (j - 1) = some (HydroOp.gwAdvance r d) := by
  induction h with
  | nil => intro j b hj; simp at hj
  | fail1 r d =>
    intro j b hj
    rcases j with _ | n
    · simp at hj
    · simp at hj
  | fail2 r d r' d' =>
    intro j b hj
    rcases j with _ | (_ | (_ | n))
    · simp at hj
    · exact ⟨Nat.one_pos, r, d, rfl⟩
    · simp at hj
    · simp at hj
  | block r d r' d' t ht ih =>
    intro j b hj
    rcases j with _ | (_ | (_ | (_ | n)))
    · simp at hj
    · exact ⟨Nat.one_pos, r, d, rfl⟩
    · simp at hj
    · exact ⟨by omega, r', d', rfl⟩
    · simp only [List.get?_cons_succ] at hj
      obtain ⟨hn, r'', d'', hg⟩ := ih n b hj
      obtain ⟨m, rfl⟩ : ∃ m, n = m + 1 := ⟨n - 1, by omega⟩
      refine ⟨by omega, r'', d'', ?_⟩
      simpa using hg

/-- C8: in `HydrologyEventStreamPower.run_step` pit detection runs exactly
once, at the start; depression filling runs exactly once and only when the
pit count is positive, before the single flow-direction update; the
flow-direction update completes before the event loop begins (the loop trace
contains no pit, fill, or direction calls); every flow accumulation inside
the loop passes `update_flow_director = False`; and every flow
re-accumulation is immediately preceded by a groundwater advance of its
sub-period. -/
theorem C8_step_ordering (sqrtFn : ℚ → ℚ) (T_h : ℚ) (area : List ℚ)
    (env : HydroEnv σ) (f0 : SPFields) :
    ∃ loopTr,
      (HydrologyEventStreamPower.run_step sqrtFn T_h area env f0).trace =
        HydroOp.findPits :: ((if 0 < env.pits then [HydroOp.lakeFill] else []) ++
          HydroOp.updateDirections :: loopTr) ∧
      HydroOp.findPits ∉ loopTr ∧ HydroOp.lakeFill ∉ loopTr ∧
      HydroOp.updateDirections ∉ loopTr ∧
      (∀ b, HydroOp.accumulateFlow b ∈ loopTr → b = false) ∧
      (∀ j b, loopTr.get? j = some (HydroOp.accumulateFlow b) →
        0 < j ∧ ∃ r d, loopTr.get? (j - 1) = some (HydroOp.gwAdvance r d)) := by
  have htr : (HydrologyEventStreamPower.run_step sqrtFn T_h area env f0).trace =
      preTrace env.pits ++ (runEventsSP env.gwStep env.snap id env.forcing env.g0
        (zerosLike f0.q_eff) (zerosLike f0.q_eff) 0 0).trace := by
    by_cases hb : (runEventsSP env.gwStep env.snap id env.forcing env.g0
        (zerosLike f0.q_eff) (zerosLike f0.q_eff) 0 0).ok = true
    · simp [HydrologyEventStreamPower.run_step, hb]
    · rw [Bool.not_eq_true] at hb
      simp [HydrologyEventStreamPower.run_step, hb]
  have hshape := runEventsSP_trace_shape env.gwStep env.snap id env.forcing env.g0
    (zerosLike f0.q_eff) (zerosLike f0.q_eff) 0 0
  obtain ⟨hf, hl, hu⟩ := eventLoopTrace_no_setup _ hshape
  refine ⟨(runEventsSP env.gwStep env.snap id env.forcing env.g0
      (zerosLike f0.q_eff) (zerosLike f0.q_eff) 0 0).trace, ?_, hf, hl, hu,
    eventLoopTrace_acc_false _ hshape, eventLoopTrace_gw_precedes _ hshape⟩
  rw [htr, preTrace]
  simp

theorem addL_zerosLike (l m : List ℚ) (h : m.length = l.length) :
    addL (zerosLike l) m = m.map (fun x => 0 + x) := by
  induction l generalizing m with
  | nil =>
    cases m with
    | nil => rfl
    | cons b bs => simp at h
  | cons a as ih =>
    cases m with
    | nil => simp at h
    | cons b bs =>
      have hb : bs.length = as.length := by simpa using h
      simp only [zerosLike, List.map_cons, addL, List.zipWith_cons_cons]
      have := ih bs hb
      simp only [zerosLike, addL] at this
      rw [this]

/-- C10: `HydrologyEventStreamPower.run_step` initializes its running
snapshot `q2` to the all-zero array on every call, so the first event's
trapezoidal contribution uses zeros as the event-start discharge `q0` rather
than any snapshot carried over from a previous step; for a one-event forcing
sequence `q_eff = 0.5*(0 + q1)*storm_dt / T_h` node by node, with `q1` the
end-of-event discharge snapshot. -/
theorem C10_first_event_zero_start (sqrtFn : ℚ → ℚ) (T_h sdt idt inten : ℚ) (pits : ℕ)
    (gw : σ → ℚ → ℚ → σ × ℕ) (snap : σ → List ℚ) (g0 : σ) (area : List ℚ) (f0 : SPFields)
    (hlen : (snap (gw g0 inten sdt).1).length = f0.q_eff.length) :
    (HydrologyEventStreamPower.run_step sqrtFn T_h area
        ⟨pits, [(sdt, idt, inten)], fun g r d => some (gw g r d), snap, g0⟩ f0).ok = true ∧
    (HydrologyEventStreamPower.run_step sqrtFn T_h area
        ⟨pits, [(sdt, idt, inten)], fun g r d => some (gw g r d), snap, g0⟩
          f0).fields.q_eff =
      (snap (gw g0 inten sdt).1).map (fun q1 => 0.5 * (0 + q1) * sdt / T_h) := by
  rcases hgw : gw g0 inten sdt with ⟨g1, n1⟩
  rcases hgw2 : gw g1 0 (max idt eps) with ⟨g2, n2⟩
  have hlen1 : (snap g1).length = f0.q_eff.length := by
    rw [hgw] at hlen
    simpa using hlen
  have hout : runEventsSP (fun g r d => some (gw g r d)) snap id [(sdt, idt, inten)] g0
      (zerosLike f0.q_eff) (zerosLike f0.q_eff) 0 0 =
      ⟨[HydroOp.gwAdvance inten sdt, HydroOp.accumulateFlow false,
        HydroOp.gwAdvance 0 (max idt eps), HydroOp.accumulateFlow false],
       addL (zerosLike f0.q_eff)
         ((addL (zerosLike f0.q_eff) (snap g1)).map (fun x => 0.5 * x * sdt)),
       snap g2, g2, max 0 n1, max 0 n2, true⟩ := by
    simp [runEventsSP, hgw, hgw2]
  have hA : addL (zerosLike f0.q_eff) (snap g1) = (snap g1).map (fun x => 0 + x) :=
    addL_zerosLike f0.q_eff (snap g1) hlen1
  have hBlen : (((snap g1).map (fun x => 0 + x)).map (fun x => 0.5 * x * sdt)).length =
      f0.q_eff.length := by simp [hlen1]
  have hB := addL_zerosLike f0.q_eff
    (((snap g1).map (fun x => 0 + x)).map (fun x => 0.5 * x * sdt)) hBlen
  constructor
  · simp [HydrologyEventStreamPower.run_step, hout]
  · have hq : (HydrologyEventStreamPower.run_step sqrtFn T_h area
        ⟨pits, [(sdt, idt, inten)], fun g r d => some (gw g r d), snap, g0⟩
          f0).fields.q_eff =
        (addL (zerosLike f0.q_eff)
          ((addL (zerosLike f0.q_eff) (snap g1)).map (fun x => 0.5 * x * sdt))).map
            (fun x => x / T_h) := by
      simp [HydrologyEventStreamPower.run_step, hout]
    rw [hq, hA, hB]
    show _ = (snap g1).map (fun q1 => 0.5 * (0 + q1) * sdt / T_h)
    simp only [List.map_map]
    congr 1
    funext x
    simp only [Function.comp_apply]
    ring

theorem C10_first_event_zero_start_witness :
    (HydrologyEventStreamPower.run_step id 100 []
        ⟨1, [(10, 1, 2)],
         fun g r d => some ((fun (_ : Unit) (_ : ℚ) (_ : ℚ) => ((), 2)) g r d),
         fun _ => [4], ()⟩ ⟨[0], [0]⟩).ok = true ∧
    (HydrologyEventStreamPower.run_step id 100 []
        ⟨1, [(10, 1, 2)],
         fun g r d => some ((fun (_ : Unit) (_ : ℚ) (_ : ℚ) => ((), 2)) g r d),
         fun _ => [4], ()⟩ ⟨[0], [0]⟩).fields.q_eff =
      ([(4 : ℚ)]).map (fun q1 => 0.5 * (0 + q1) * 10 / 100) :=
  C10_first_event_zero_start id 100 10 1 2 1 (fun _ _ _ => ((), 2)) (fun _ => [4]) ()
    [] ⟨[0], [0]⟩ rfl
